import Mathlib

/-!
# Verification of the Ant3D map converter (`convert_map.py`)

Shallow embedding of the map-conversion script: the OpenSCAD map parser
(`parse_scad_map`), the 9-bit cell-code decoder, the statistics aggregator
and the JSON document builder (`convert_to_json`), together with theorems
settling the specification's claims about them.

Strings are modelled as `List Char`; Python integers as `Int` (Python's
arithmetic right shift `>>` is floor division, `& 1` on an arbitrary int is
the non-negative remainder mod 2, matching `Int.fdiv` and `Int.emod`).
-/

deriving instance DecidableEq for Except

namespace Ant3D

/-- Error taxonomy of the conversion pipeline (spec section 7):
structural parse failure, bad integer token, indexing an empty grid,
and division by a zero cell count. -/
inductive ConvErr where
  | parseError : ConvErr
  | valueError : ConvErr
  | indexError : ConvErr
  | divisionError : ConvErr
deriving DecidableEq, Repr

/-! ## Character-level string helpers (Python `str` methods) -/

/-- ASCII whitespace, as recognised by Python's `str.strip()` on this
file's ASCII input. -/
def isSpace (c : Char) : Bool :=
  c == ' ' || c == '\t' || c == '\n' || c == '\r' || c == '\x0b' || c == '\x0c'

/-- Drop trailing characters satisfying `p` (helper for `strip`). -/
def dropRightWhile (p : Char → Bool) (l : List Char) : List Char :=
  (l.reverse.dropWhile p).reverse

/-- Python `s.strip(chars)`: remove characters satisfying `p` from both
ends. -/
def stripWhile (p : Char → Bool) (l : List Char) : List Char :=
  dropRightWhile p (l.dropWhile p)

/-- Python `line.strip()` (whitespace strip). -/
def pyStrip (l : List Char) : List Char :=
  stripWhile isSpace l

/-- Python `line.strip("[],")`. -/
def stripBrk (l : List Char) : List Char :=
  stripWhile (fun c => c == '[' || c == ']' || c == ',') l

/-- Python `s.split(sep)` for a single-character separator: keeps empty
pieces, `"".split(sep) = [""]`. -/
def splitOnChar (sep : Char) : List Char → List (List Char)
  | [] => [[]]
  | c :: cs =>
    let r := splitOnChar sep cs
    if c = sep then [] :: r
    else
      match r with
      | [] => [[c]]
      | h :: t => (c :: h) :: t

/-- Value of an ASCII decimal digit. -/
def digitVal? (c : Char) : Option Nat :=
  if '0' ≤ c ∧ c ≤ '9' then some (c.toNat - '0'.toNat) else none

/-- Parse a non-empty string of decimal digits as a natural number. -/
def parseNat? (l : List Char) : Option Nat :=
  if l.isEmpty then none
  else
    l.foldl
      (fun acc c =>
        match acc, digitVal? c with
        | some n, some d => some (10 * n + d)
        | _, _ => none)
      (some 0)

/-- Python `int(s)` on an already-whitespace-stripped token: an optional
sign followed by decimal digits. (Python's digit-group underscores and
non-ASCII digits are not modelled; no token in this format uses them.) -/
def int_of_string? (l : List Char) : Option Int :=
  match l with
  | '-' :: rest => (parseNat? rest).map (fun n => -(n : Int))
  | '+' :: rest => (parseNat? rest).map (fun n => (n : Int))
  | _ => (parseNat? l).map (fun n => (n : Int))

/-- Find the first occurrence of `pat` in a list and split around it,
as `re.search` does for a literal pattern: `some (before, after)` when
found, `none` otherwise. -/
def splitOnFirst (pat : List Char) : List Char → Option (List Char × List Char)
  | [] => if List.isPrefixOf pat ([] : List Char) then some ([], []) else none
  | c :: cs =>
    if List.isPrefixOf pat (c :: cs) then some ([], List.drop pat.length (c :: cs))
    else
      match splitOnFirst pat cs with
      | some (a, b) => some (c :: a, b)
      | none => none

/-! ## The parser (`parse_scad_map`, source lines 13-39) -/

/-- The start marker `map=[` of the regex `map=\[(.*?)\];`. -/
def startMarker : List Char := ['m', 'a', 'p', '=', '[']

/-- The end marker `];` of the regex `map=\[(.*?)\];`. -/
def endMarker : List Char := [']', ';']

/-- `re.search(r"map=\[(.*?)\];", content, re.DOTALL)`: the span between
the first `map=[` and the first `];` after it (non-greedy, leftmost). -/
def extractSpan (content : List Char) : Option (List Char) :=
  match splitOnFirst startMarker content with
  | none => none
  | some (_, rest) =>
    match splitOnFirst endMarker rest with
    | none => none
    | some (body, _) => some body

/-- The comprehension `[int(x.strip()) for x in numbers_str.split(",") if x.strip()]`:
skip tokens that strip to empty, fail with `ValueError` on a token that is
not an integer. -/
def parseTokens : List (List Char) → Except ConvErr (List Int)
  | [] => Except.ok []
  | t :: ts =>
    if pyStrip t = [] then parseTokens ts
    else
      match int_of_string? (pyStrip t) with
      | none => Except.error ConvErr.valueError
      | some n => (parseTokens ts).map (fun ns => n :: ns)

/-- One iteration of the line loop (source lines 28-37): strip the line;
if it starts with `[`, strip `[],` from both ends; if the result is
non-empty, parse the comma-separated tokens into a row. `ok none` means
the line contributes no row. -/
def lineRow? (line : List Char) : Except ConvErr (Option (List Int)) :=
  if (pyStrip line).head? = some '[' then
    if stripBrk (pyStrip line) = [] then Except.ok none
    else (parseTokens (splitOnChar ',' (stripBrk (pyStrip line)))).map some
  else Except.ok none

/-- The whole line loop: rows are appended in source order; the first bad
token aborts everything. -/
def processLines : List (List Char) → Except ConvErr (List (List Int))
  | [] => Except.ok []
  | line :: rest =>
    match lineRow? line with
    | Except.error e => Except.error e
    | Except.ok none => processLines rest
    | Except.ok (some r) => (processLines rest).map (fun rs => r :: rs)

/-- `parse_scad_map` on file content (the file read itself is not
modelled): locate the marker span, else `ValueError` ("Could not find map
array in file"); then process the span line by line. -/
def parseScad (content : List Char) : Except ConvErr (List (List Int)) :=
  match extractSpan content with
  | none => Except.error ConvErr.parseError
  | some body => processLines (splitOnChar '\n' body)

/-- String-level entry point of the parser. -/
def parse_scad_map (content : String) : Except ConvErr (List (List Int)) :=
  parseScad content.data

/-! ## The bitmask decoder (source lines 105-110 and 51-57) -/

/-- Python's `(val >> z) & 1 == 1`: arithmetic shift is floor division,
`& 1` is the non-negative remainder mod 2. -/
def bitSet (val : Int) (z : Nat) : Bool :=
  decide (Int.fdiv val (2 ^ z) % 2 = 1)

/-- The decoder: `for z in range(9): if (val >> z) & 1: blocks.append(z)`. -/
def decode (val : Int) : List Nat :=
  (List.range 9).filter (fun z => bitSet val z)

/-- The inner loop of the block counter (source lines 55-57): add one for
each set bit among bits 0..8. -/
def blockCount (val : Int) : Int :=
  (List.range 9).foldl (fun acc z => if bitSet val z then acc + 1 else acc) 0

/-! ## Statistics aggregator (source lines 46-65) -/

/-- `sum(1 for row in heightmap for val in row if val == 0)`. -/
def ground_only_of (hm : List (List Int)) : Int :=
  hm.foldl (fun acc row => row.foldl (fun a val => if val = 0 then a + 1 else a) acc) 0

/-- The nested block-counting loop (source lines 51-57). -/
def total_blocks_of (hm : List (List Int)) : Int :=
  hm.foldl (fun acc row => row.foldl (fun a val => a + blockCount val) acc) 0

/-- The statistics record printed by `convert_to_json`. -/
structure MapStats where
  total_cells : Int
  ground_only : Int
  elevated : Int
  total_blocks : Int
deriving DecidableEq, Repr

/-- Statistics phase of `convert_to_json`: `heightmap[0]` raises
`IndexError` on an empty grid (line 46); the percentage prints (line 62)
raise `ZeroDivisionError` when `total_cells` is zero. -/
def computeStats (hm : List (List Int)) : Except ConvErr MapStats :=
  match hm.head? with
  | none => Except.error ConvErr.indexError
  | some row0 =>
    let total_cells : Int := hm.length * row0.length
    let ground_only := ground_only_of hm
    let elevated := total_cells - ground_only
    let total_blocks := total_blocks_of hm
    if total_cells = 0 then Except.error ConvErr.divisionError
    else Except.ok ⟨total_cells, ground_only, elevated, total_blocks⟩

/-! ## JSON document (source lines 68-81) -/

/-- A JSON value, enough for the output document. -/
inductive JValue where
  | jnull : JValue
  | jbool : Bool → JValue
  | jnum : Int → JValue
  | jstr : String → JValue
  | jarr : List JValue → JValue
  | jobj : List (String × JValue) → JValue

/-- A grid row as a JSON array of numbers. -/
def encodeRow (row : List Int) : JValue :=
  JValue.jarr (row.map JValue.jnum)

/-- The grid as a JSON array of rows (rows-major). -/
def encodeGrid (hm : List (List Int)) : JValue :=
  JValue.jarr (hm.map encodeRow)

/-- `convert_to_json`: compute the statistics (which can fail as above),
then build the `map_data` document with its fixed keys in source order.
The file write happens after this point and is modelled in
`runConversion`. -/
def convert_to_json (hm : List (List Int)) : Except ConvErr (MapStats × JValue) :=
  match computeStats hm with
  | Except.error e => Except.error e
  | Except.ok st =>
    match hm.head? with
    | none => Except.error ConvErr.indexError
    | some row0 =>
      Except.ok (st, JValue.jobj
        [("name", JValue.jstr "Ant Attack Original"),
         ("width", JValue.jnum row0.length),
         ("height", JValue.jnum hm.length),
         ("maxLevels", JValue.jnum 9),
         ("heightMap", encodeGrid hm),
         ("blocks", JValue.jarr []),
         ("ramps", JValue.jarr []),
         ("createdAt", JValue.jstr "2025-01-01T00:00:00Z")])

/-- The `main` pipeline on given input content: parse, convert, and only
then write. The second component lists the documents written to the
output file — empty exactly when the run aborts before the write. -/
def runConversion (content : String) : Except ConvErr Unit × List JValue :=
  match parseScad content.data with
  | Except.error e => (Except.error e, [])
  | Except.ok hm =>
    match convert_to_json hm with
    | Except.error e => (Except.error e, [])
    | Except.ok (_, doc) => (Except.ok (), [doc])

/-! ## Reading fields back out of the document -/

/-- Look up a top-level key in a JSON object. -/
def lookupKey (k : String) : JValue → Option JValue
  | JValue.jobj fields => (fields.find? (fun p => p.1 == k)).map Prod.snd
  | _ => none

/-- Decode a JSON number. -/
def decodeNum? : JValue → Option Int
  | JValue.jnum n => some n
  | _ => none

/-- Decode every element of a JSON array, failing if any element fails. -/
def decodeList (f : JValue → Option α) : List JValue → Option (List α)
  | [] => some []
  | v :: vs =>
    match f v, decodeList f vs with
    | some a, some as => some (a :: as)
    | _, _ => none

/-- Decode a JSON array of numbers as a grid row. -/
def decodeRow? : JValue → Option (List Int)
  | JValue.jarr l => decodeList decodeNum? l
  | _ => none

/-- Decode a JSON array of arrays of numbers as a grid. -/
def decodeGrid? : JValue → Option (List (List Int))
  | JValue.jarr l => decodeList decodeRow? l
  | _ => none

/-! ## Theorems about the bitmask decoder (claim C1) -/

/-- For non-negative inputs the Python bit test agrees with `Nat.testBit`. -/
theorem bitSet_natCast (n z : Nat) : bitSet (n : Int) z = Nat.testBit n z := by
  simp only [bitSet, Nat.testBit_to_div_mod]
  rw [Int.fdiv_eq_ediv _ (pow_nonneg (by norm_num) z)]
  rw [decide_eq_decide]
  norm_cast

/-- Membership in the decoder output. -/
theorem mem_decode {c : Int} {z : Nat} :
    z ∈ decode c ↔ z < 9 ∧ bitSet c z = true := by
  simp [decode, List.mem_filter, List.mem_range]

/-- The bit test only looks at the low 9 bits: it is invariant under
adding multiples of 512 (equivalently, under reducing mod 512). -/
theorem bitSet_emod_512 (val : Int) (z : Nat) (hz : z < 9) :
    bitSet (val % 512) z = bitSet val z := by
  have hpow : (0 : Int) < 2 ^ z := pow_pos (by norm_num) z
  simp only [bitSet]
  rw [Int.fdiv_eq_ediv _ hpow.le, Int.fdiv_eq_ediv _ hpow.le]
  have h512 : (512 : Int) = 2 * 2 ^ (8 - z) * 2 ^ z := by
    have hmul : (2 : Int) * 2 ^ (8 - z) * 2 ^ z = 2 ^ (1 + (8 - z) + z) := by
      rw [pow_add, pow_add, pow_one]
    have hz8 : 1 + (8 - z) + z = 9 := by omega
    rw [hmul, hz8]
    norm_num
  have hval : val = val % 512 + 2 * 2 ^ (8 - z) * (val / 512) * 2 ^ z := by
    calc val = 512 * (val / 512) + val % 512 := (Int.ediv_add_emod val 512).symm
    _ = val % 512 + 2 * 2 ^ (8 - z) * (val / 512) * 2 ^ z := by rw [h512]; ring
  conv_rhs => rw [hval]
  rw [Int.add_mul_ediv_right _ _ (ne_of_gt hpow)]
  rw [mul_assoc, Int.add_mul_emod_self_left]

/-- C1: for every cell code in [0,511] the decoder returns exactly the
ascending list of bit positions 0..8 that are set; `decode 0 = []`,
`decode 511 = [0,…,8]`, `decode 15 = [0,1,2,3]`, `decode 63 = [0,…,5]`,
`decode 59 = [0,1,3,4,5]`; it is total and inspects only bits 0..8, so it
is invariant under reducing the input mod 512. -/
theorem C1_decoder :
    (∀ c : Nat, c ≤ 511 → ∀ z : Nat,
      z ∈ decode (c : Int) ↔ z ≤ 8 ∧ Nat.testBit c z = true)
    ∧ (∀ val : Int, List.Sorted (· < ·) (decode val))
    ∧ decode 0 = []
    ∧ decode 511 = [0, 1, 2, 3, 4, 5, 6, 7, 8]
    ∧ decode 15 = [0, 1, 2, 3]
    ∧ decode 63 = [0, 1, 2, 3, 4, 5]
    ∧ decode 59 = [0, 1, 3, 4, 5]
    ∧ (∀ val : Int, decode val = decode (val % 512)) := by
  refine ⟨?_, ?_, by decide, by decide, by decide, by decide, by decide, ?_⟩
  · intro c _ z
    rw [mem_decode, bitSet_natCast]
    constructor <;> rintro ⟨h1, h2⟩ <;> exact ⟨by omega, h2⟩
  · intro val
    exact List.Pairwise.filter _ (List.sorted_lt_range 9)
  · intro val
    unfold decode
    refine (List.filter_congr ?_).symm
    intro z hz
    exact bitSet_emod_512 val z (List.mem_range.mp hz)

/-- Witness for C1 at a concrete input. -/
theorem C1_decoder_witness :
    (3 ∈ decode ((59 : Nat) : Int) ↔ 3 ≤ 8 ∧ Nat.testBit 59 3 = true)
    ∧ decode 59 = [0, 1, 3, 4, 5] :=
  ⟨C1_decoder.1 59 (by decide) 3, C1_decoder.2.2.2.2.2.2.1⟩

/-! ## Theorems about the statistics aggregator (claim C4) -/

/-- The block-counting inner loop counts exactly the length of the
decoded level list. -/
theorem blockCount_eq_decode_length (val : Int) :
    blockCount val = ((decode val).length : Int) := by
  have h : ∀ (l : List Nat) (acc : Int),
      l.foldl (fun acc z => if bitSet val z then acc + 1 else acc) acc
        = acc + ((l.filter (fun z => bitSet val z)).length : Int) := by
    intro l
    induction l with
    | nil => intro acc; simp
    | cons x xs ih =>
      intro acc
      by_cases hx : bitSet val x
      · simp only [List.foldl_cons, List.filter_cons, hx, if_true, ih, List.length_cons]
        push_cast
        ring
      · simp only [List.foldl_cons, List.filter_cons, hx, if_false, ih,
          Bool.false_eq_true]
  simpa [blockCount, decode] using h (List.range 9) 0

/-- The zero-counting loop over one row counts the cells equal to 0. -/
theorem ground_row_eq (row : List Int) (acc : Int) :
    row.foldl (fun a val => if val = 0 then a + 1 else a) acc
      = acc + ((row.filter (fun v => decide (v = 0))).length : Int) := by
  induction row generalizing acc with
  | nil => simp
  | cons x xs ih =>
    by_cases hx : x = 0
    · simp only [List.foldl_cons, List.filter_cons, hx, if_true, ih]
      simp only [decide_True, if_true, List.length_cons]
      push_cast
      ring
    · simp only [List.foldl_cons, List.filter_cons, hx, if_false, ih]
      simp [hx]

/-- The zero-counting loop over the whole grid. -/
theorem ground_only_of_eq (hm : List (List Int)) :
    ground_only_of hm
      = (hm.map (fun row => ((row.filter (fun v => decide (v = 0))).length : Int))).sum := by
  have h : ∀ (g : List (List Int)) (acc : Int),
      g.foldl (fun acc row => row.foldl (fun a val => if val = 0 then a + 1 else a) acc) acc
        = acc + (g.map (fun row => ((row.filter (fun v => decide (v = 0))).length : Int))).sum := by
    intro g
    induction g with
    | nil => intro acc; simp
    | cons r rs ih =>
      intro acc
      rw [List.foldl_cons, ih]
      simp only [ground_row_eq, List.map_cons, List.sum_cons]
      ring
  simpa [ground_only_of] using h hm 0

/-- One row's contribution to the block total. -/
theorem row_blocks_eq (row : List Int) (acc : Int) :
    row.foldl (fun a val => a + blockCount val) acc
      = acc + (row.map (fun v => ((decode v).length : Int))).sum := by
  induction row generalizing acc with
  | nil => simp
  | cons x xs ih =>
    rw [List.foldl_cons, ih]
    simp only [blockCount_eq_decode_length, List.map_cons, List.sum_cons]
    ring

/-- The nested block-counting loop sums the decoded lengths of all cells. -/
theorem total_blocks_of_eq (hm : List (List Int)) :
    total_blocks_of hm
      = (hm.map (fun row => (row.map (fun v => ((decode v).length : Int))).sum)).sum := by
  have h : ∀ (g : List (List Int)) (acc : Int),
      g.foldl (fun acc row => row.foldl (fun a val => a + blockCount val) acc) acc
        = acc + (g.map (fun row => (row.map (fun v => ((decode v).length : Int))).sum)).sum := by
    intro g
    induction g with
    | nil => intro acc; simp
    | cons r rs ih =>
      intro acc
      rw [List.foldl_cons, ih]
      simp only [row_blocks_eq, List.map_cons, List.sum_cons]
      ring
  simpa [total_blocks_of] using h hm 0

/-- C4: whenever the statistics phase succeeds, `total_blocks` is the sum
of `len (decode c)` over every cell, `ground_only` counts the cells whose
code is exactly 0, `ground_only + elevated = total_cells`, and
`total_cells` is the row count times the first row's length. -/
theorem C4_statistics (hm : List (List Int)) (st : MapStats)
    (h : computeStats hm = Except.ok st) :
    st.total_blocks
        = (hm.map (fun row => (row.map (fun v => ((decode v).length : Int))).sum)).sum
    ∧ st.ground_only
        = (hm.map (fun row => ((row.filter (fun v => decide (v = 0))).length : Int))).sum
    ∧ st.ground_only + st.elevated = st.total_cells
    ∧ st.total_cells = (hm.length : Int) * ((hm.headD []).length : Int) := by
  cases hm with
  | nil => simp [computeStats] at h
  | cons row0 rest =>
    unfold computeStats at h
    simp only [List.head?_cons] at h
    split at h
    · cases h
    · cases h
      refine ⟨total_blocks_of_eq _, ground_only_of_eq _, by ring, by simp⟩

/-- Witness for C4 at a concrete grid. -/
theorem C4_statistics_witness :
    (⟨2, 1, 1, 4⟩ : MapStats).ground_only + (⟨2, 1, 1, 4⟩ : MapStats).elevated
      = (⟨2, 1, 1, 4⟩ : MapStats).total_cells :=
  (C4_statistics [[0, 15]] ⟨2, 1, 1, 4⟩ (by decide)).2.2.1

/-! ## Theorems about the serialized document (claims C3 and C8) -/

/-- Decoding a list of encoded numbers gives the numbers back. -/
theorem decodeList_nums (row : List Int) :
    decodeList decodeNum? (row.map JValue.jnum) = some row := by
  induction row with
  | nil => rfl
  | cons x xs ih => simp [decodeList, decodeNum?, ih]

/-- Decoding a row encoded as a JSON array of numbers gives the row back. -/
theorem decodeRow_encodeRow (row : List Int) :
    decodeRow? (encodeRow row) = some row :=
  decodeList_nums row

/-- Decoding a list of encoded rows gives the rows back. -/
theorem decodeList_rows (hm : List (List Int)) :
    decodeList decodeRow? (hm.map encodeRow) = some hm := by
  induction hm with
  | nil => rfl
  | cons r rs ih => simp [decodeList, decodeRow_encodeRow, ih]

/-- Decoding the encoded grid gives the grid back. -/
theorem decodeGrid_encodeGrid (hm : List (List Int)) :
    decodeGrid? (encodeGrid hm) = some hm :=
  decodeList_rows hm

/-- Inversion of a successful conversion: the grid is non-empty and the
document is the fixed-key object built from it. -/
theorem convert_to_json_ok (hm : List (List Int)) (st : MapStats) (doc : JValue)
    (h : convert_to_json hm = Except.ok (st, doc)) :
    ∃ row0 rest, hm = row0 :: rest
      ∧ doc = JValue.jobj
          [("name", JValue.jstr "Ant Attack Original"),
           ("width", JValue.jnum row0.length),
           ("height", JValue.jnum hm.length),
           ("maxLevels", JValue.jnum 9),
           ("heightMap", encodeGrid hm),
           ("blocks", JValue.jarr []),
           ("ramps", JValue.jarr []),
           ("createdAt", JValue.jstr "2025-01-01T00:00:00Z")] := by
  cases hm with
  | nil => simp [convert_to_json, computeStats] at h
  | cons row0 rest =>
    refine ⟨row0, rest, rfl, ?_⟩
    unfold convert_to_json at h
    cases hcs : computeStats (row0 :: rest) with
    | error e => rw [hcs] at h; cases h
    | ok st2 =>
      rw [hcs] at h
      simp only [List.head?_cons] at h
      cases h
      rfl

/-- C3: whenever the conversion succeeds, reading the `heightMap` field
back out of the produced document and decoding it yields exactly the
original grid (values and row order preserved). -/
theorem C3_roundtrip (hm : List (List Int)) (st : MapStats) (doc : JValue)
    (h : convert_to_json hm = Except.ok (st, doc)) :
    (lookupKey "heightMap" doc).bind decodeGrid? = some hm := by
  obtain ⟨row0, rest, hhm, hdoc⟩ := convert_to_json_ok hm st doc h
  subst hdoc
  show decodeGrid? (encodeGrid hm) = some hm
  exact decodeGrid_encodeGrid hm

/-- Witness for C3 at a concrete grid. -/
theorem C3_roundtrip_witness :
    (lookupKey "heightMap"
        (JValue.jobj
          [("name", JValue.jstr "Ant Attack Original"),
           ("width", JValue.jnum 2),
           ("height", JValue.jnum 2),
           ("maxLevels", JValue.jnum 9),
           ("heightMap", encodeGrid [[0, 15], [63, 59]]),
           ("blocks", JValue.jarr []),
           ("ramps", JValue.jarr []),
           ("createdAt", JValue.jstr "2025-01-01T00:00:00Z")])).bind decodeGrid?
      = some [[0, 15], [63, 59]] :=
  C3_roundtrip [[0, 15], [63, 59]] ⟨4, 1, 3, 15⟩ _ (by rfl)

/-- C8: whenever the conversion succeeds, the document is a JSON object
with exactly the keys `name` (string), `width` (first row's length),
`height` (row count), `maxLevels` (constant 9), `heightMap` (the grid,
rows-major), `blocks` (empty array), `ramps` (empty array) and
`createdAt` (ISO-8601 timestamp string), in that order; in particular a
128x128 grid yields width 128 and height 128 by instantiation. -/
theorem C8_document (hm : List (List Int)) (st : MapStats) (doc : JValue)
    (h : convert_to_json hm = Except.ok (st, doc)) :
    doc = JValue.jobj
      [("name", JValue.jstr "Ant Attack Original"),
       ("width", JValue.jnum ((hm.headD []).length : Int)),
       ("height", JValue.jnum (hm.length : Int)),
       ("maxLevels", JValue.jnum 9),
       ("heightMap", encodeGrid hm),
       ("blocks", JValue.jarr []),
       ("ramps", JValue.jarr []),
       ("createdAt", JValue.jstr "2025-01-01T00:00:00Z")]
    ∧ lookupKey "width" doc = some (JValue.jnum ((hm.headD []).length : Int))
    ∧ lookupKey "height" doc = some (JValue.jnum (hm.length : Int)) := by
  obtain ⟨row0, rest, hhm, hdoc⟩ := convert_to_json_ok hm st doc h
  subst hhm
  subst hdoc
  exact ⟨rfl, rfl, rfl⟩

/-- Witness for C8 at a concrete grid. -/
theorem C8_document_witness :
    lookupKey "width"
        (JValue.jobj
          [("name", JValue.jstr "Ant Attack Original"),
           ("width", JValue.jnum 1),
           ("height", JValue.jnum 1),
           ("maxLevels", JValue.jnum 9),
           ("heightMap", encodeGrid [[7]]),
           ("blocks", JValue.jarr []),
           ("ramps", JValue.jarr []),
           ("createdAt", JValue.jstr "2025-01-01T00:00:00Z")])
      = some (JValue.jnum (([7] : List Int).length : Int)) :=
  (C8_document [[7]] ⟨1, 0, 1, 3⟩ _ (by rfl)).2.1

/-! ## Theorems about marker search (claims C2 and C5) -/

/-- A successful split decomposes the input around the pattern. -/
theorem splitOnFirst_sound {pat l x y : List Char}
    (h : splitOnFirst pat l = some (x, y)) : l = x ++ pat ++ y := by
  induction l generalizing x y with
  | nil =>
    unfold splitOnFirst at h
    cases pat with
    | nil => simp at h; simp [h.1, h.2]
    | cons p ps => simp [List.isPrefixOf] at h
  | cons c cs ih =>
    unfold splitOnFirst at h
    by_cases hp : List.isPrefixOf pat (c :: cs) = true
    · rw [if_pos hp] at h
      obtain ⟨t, ht⟩ := List.isPrefixOf_iff_prefix.mp hp
      simp only [Option.some.injEq, Prod.mk.injEq] at h
      obtain ⟨hx, hy⟩ := h
      subst hx
      rw [← ht, List.drop_left] at hy
      simp [← hy, ht]
    · rw [if_neg hp] at h
      cases hsp : splitOnFirst pat cs with
      | none => rw [hsp] at h; cases h
      | some ab =>
        obtain ⟨a, b⟩ := ab
        rw [hsp] at h
        simp only [Option.some.injEq, Prod.mk.injEq] at h
        obtain ⟨hx, hy⟩ := h
        subst hx
        subst hy
        simp [ih hsp]

/-- Splitting on a pattern sitting at the very front of the input. -/
theorem splitOnFirst_at_start (p : Char) (ps rest : List Char) :
    splitOnFirst (p :: ps) ((p :: ps) ++ rest) = some ([], rest) := by
  have hpre : List.isPrefixOf (p :: ps) ((p :: ps) ++ rest) = true :=
    List.isPrefixOf_iff_prefix.mpr ⟨rest, rfl⟩
  rw [List.cons_append]
  unfold splitOnFirst
  rw [← List.cons_append, if_pos hpre, List.drop_left' rfl]

/-- Finding `];` after a span that contains no semicolon splits exactly at
that `];`. -/
theorem splitOnFirst_endMarker (a b : List Char) (ha : ';' ∉ a) :
    splitOnFirst endMarker (a ++ ']' :: ';' :: b) = some (a, b) := by
  induction a with
  | nil =>
    show splitOnFirst endMarker (']' :: ';' :: b) = some ([], b)
    unfold splitOnFirst
    have hp : List.isPrefixOf endMarker (']' :: ';' :: b) = true :=
      List.isPrefixOf_iff_prefix.mpr ⟨b, rfl⟩
    rw [if_pos hp]
    rfl
  | cons c a2 ih =>
    have ha2 : ';' ∉ a2 := fun hmem => ha (List.mem_cons_of_mem _ hmem)
    have hpre : List.isPrefixOf endMarker (c :: (a2 ++ ']' :: ';' :: b)) = false := by
      show ((']' == c) && List.isPrefixOf [';'] (a2 ++ ']' :: ';' :: b)) = false
      cases a2 with
      | nil =>
        show ((']' == c) && ((';' == ']') && List.isPrefixOf [] (';' :: b))) = false
        simp
      | cons d a3 =>
        have hd : d ≠ ';' := fun hdd => ha2 (hdd ▸ List.mem_cons_self d a3)
        show ((']' == c) && ((';' == d) && List.isPrefixOf [] (a3 ++ ']' :: ';' :: b))) = false
        have h1 : (';' == d) = false := beq_eq_false_iff_ne.mpr (fun hh => hd hh.symm)
        simp [h1]
    rw [List.cons_append]
    unfold splitOnFirst
    rw [if_neg (by simp [hpre]), ih ha2]

/-- Splitting on a pattern preceded by text that never mentions the
pattern's first character. -/
theorem splitOnFirst_after (p : Char) (ps pre rest : List Char) (hp : p ∉ pre) :
    splitOnFirst (p :: ps) (pre ++ ((p :: ps) ++ rest)) = some (pre, rest) := by
  induction pre with
  | nil => exact splitOnFirst_at_start p ps rest
  | cons c pre2 ih =>
    have hc : c ≠ p := fun hcc => hp (hcc ▸ List.mem_cons_self c pre2)
    have hpre : List.isPrefixOf (p :: ps) (c :: (pre2 ++ ((p :: ps) ++ rest))) = false := by
      show ((p == c) && List.isPrefixOf ps (pre2 ++ ((p :: ps) ++ rest))) = false
      have h1 : (p == c) = false := beq_eq_false_iff_ne.mpr (fun hh => hc hh.symm)
      simp [h1]
    rw [List.cons_append]
    unfold splitOnFirst
    rw [if_neg (fun hcond => by rw [hpre] at hcond; cases hcond)]
    rw [ih (fun hm => hp (List.mem_cons_of_mem _ hm))]

/-- Marker extraction on well-formed input: the span between the first
`map=[` and the first following `];` is returned, provided nothing
before the start marker contains an `m` and the span itself contains no
semicolon. -/
theorem extractSpan_append (pre body post : List Char)
    (hpre : 'm' ∉ pre) (hb : ';' ∉ body) :
    extractSpan (pre ++ (startMarker ++ (body ++ (endMarker ++ post)))) = some body := by
  have h1 : splitOnFirst startMarker (pre ++ (startMarker ++ (body ++ (endMarker ++ post))))
      = some (pre, body ++ (endMarker ++ post)) :=
    splitOnFirst_after 'm' ['a', 'p', '=', '['] pre _ hpre
  have h2 : splitOnFirst endMarker (body ++ (endMarker ++ post)) = some (body, post) := by
    have hsame : body ++ (endMarker ++ post) = body ++ ']' :: ';' :: post := rfl
    rw [hsame]
    exact splitOnFirst_endMarker body post hb
  unfold extractSpan
  simp only [h1, h2]

/-- C2: for any input text of the shape anything-without-`m`, then
`map=[`, then a span with no semicolon, then `];`, then anything, the
parser processes exactly the span's lines with the per-line data-row
rule (`processLines` composed with `lineRow?`: trim, recognize a data
row by a leading `[`, strip `[],`, split on commas, parse non-empty
tokens, append rows in source order, silently skip other lines); in
particular the concrete input of the spec parses to `[[0,15],[63,59]]`. -/
theorem C2_parse_span (pre body post : List Char) (hpre : 'm' ∉ pre) (hb : ';' ∉ body) :
    parseScad (pre ++ (startMarker ++ (body ++ (endMarker ++ post))))
        = processLines (splitOnChar '\n' body)
    ∧ parse_scad_map "map=[\n[0,15],\n[63,59]\n];" = Except.ok [[0, 15], [63, 59]] := by
  refine ⟨?_, by decide⟩
  unfold parseScad
  rw [extractSpan_append pre body post hpre hb]

/-- Witness for C2 at the spec's concrete input. -/
theorem C2_parse_span_witness :
    parseScad ([] ++ (startMarker ++ ("\n[0,15],\n[63,59]\n".data ++ (endMarker ++ []))))
        = processLines (splitOnChar '\n' "\n[0,15],\n[63,59]\n".data)
    ∧ parse_scad_map "map=[\n[0,15],\n[63,59]\n];" = Except.ok [[0, 15], [63, 59]] :=
  C2_parse_span [] "\n[0,15],\n[63,59]\n".data [] (by decide) (by decide)

/-- C5: if the input text does not contain `map=[` followed (anywhere
later) by `];`, the conversion fails with the structural parse error and
writes nothing. -/
theorem C5_missing_marker (content : String)
    (h : ¬ ∃ a b c : List Char,
        content.data = a ++ startMarker ++ b ++ endMarker ++ c) :
    runConversion content = (Except.error ConvErr.parseError, []) := by
  have hex : extractSpan content.data = none := by
    cases h1 : splitOnFirst startMarker content.data with
    | none => simp [extractSpan, h1]
    | some pr =>
      obtain ⟨p, r⟩ := pr
      cases h2 : splitOnFirst endMarker r with
      | none => simp [extractSpan, h1, h2]
      | some be =>
        obtain ⟨body, rest2⟩ := be
        exfalso
        apply h
        have e1 := splitOnFirst_sound h1
        have e2 := splitOnFirst_sound h2
        refine ⟨p, body, rest2, ?_⟩
        rw [e1, e2]
        simp [List.append_assoc]
  simp [runConversion, parseScad, hex]

/-- Witness for C5: an input with the start marker but no `];`. -/
theorem C5_missing_marker_witness :
    runConversion "map=[\n[1]\n" = (Except.error ConvErr.parseError, []) := by
  apply C5_missing_marker
  rintro ⟨a, b, c, habc⟩
  have hsemi : ';' ∈ "map=[\n[1]\n".data := by
    rw [habc]
    have h2 : ';' ∈ endMarker := by decide
    exact List.mem_append_left _ (List.mem_append_right _ h2)
  exact absurd hsemi (by decide)

/-! ## Theorems about bad tokens (claim C6) -/

/-- The only error the token loop can raise is the value error. -/
theorem parseTokens_err_eq (ts : List (List Char)) (e : ConvErr)
    (h : parseTokens ts = Except.error e) : e = ConvErr.valueError := by
  induction ts with
  | nil => simp [parseTokens] at h
  | cons t ts2 ih =>
    unfold parseTokens at h
    by_cases hs : pyStrip t = []
    · rw [if_pos hs] at h
      exact ih h
    · rw [if_neg hs] at h
      cases hint : int_of_string? (pyStrip t) with
      | none => rw [hint] at h; cases h; rfl
      | some n =>
        rw [hint] at h
        cases hrec : parseTokens ts2 with
        | error e2 =>
          rw [hrec] at h
          cases h
          exact ih hrec
        | ok l => rw [hrec] at h; cases h

/-- A token that strips to something non-empty yet unparseable makes the
token loop fail with the value error. -/
theorem parseTokens_err_of_bad (ts : List (List Char)) (tok : List Char)
    (hmem : tok ∈ ts) (hne : pyStrip tok ≠ [])
    (hbad : int_of_string? (pyStrip tok) = none) :
    parseTokens ts = Except.error ConvErr.valueError := by
  induction ts with
  | nil => cases hmem
  | cons t ts2 ih =>
    rcases List.mem_cons.mp hmem with rfl | hmem2
    · unfold parseTokens
      rw [if_neg hne, hbad]
    · unfold parseTokens
      by_cases hs : pyStrip t = []
      · rw [if_pos hs]
        exact ih hmem2
      · rw [if_neg hs]
        cases hint : int_of_string? (pyStrip t) with
        | none => rfl
        | some n => rw [ih hmem2]; rfl

/-- A data row containing such a bad token makes the per-line step fail. -/
theorem lineRow?_err_of_bad (line tok : List Char)
    (hhead : (pyStrip line).head? = some '[')
    (hmem : tok ∈ splitOnChar ',' (stripBrk (pyStrip line)))
    (hne : pyStrip tok ≠ [])
    (hbad : int_of_string? (pyStrip tok) = none) :
    lineRow? line = Except.error ConvErr.valueError := by
  have hns : stripBrk (pyStrip line) ≠ [] := by
    intro h0
    rw [h0] at hmem
    have : tok = [] := by simpa [splitOnChar] using hmem
    exact hne (by simp [this, pyStrip, stripWhile, dropRightWhile])
  unfold lineRow?
  rw [if_pos hhead, if_neg hns,
    parseTokens_err_of_bad _ tok hmem hne hbad]
  rfl

/-- The only error the per-line step can raise is the value error. -/
theorem lineRow?_err_eq (line : List Char) (e : ConvErr)
    (h : lineRow? line = Except.error e) : e = ConvErr.valueError := by
  unfold lineRow? at h
  by_cases h1 : (pyStrip line).head? = some '['
  · rw [if_pos h1] at h
    by_cases h2 : stripBrk (pyStrip line) = []
    · rw [if_pos h2] at h; cases h
    · rw [if_neg h2] at h
      cases hp : parseTokens (splitOnChar ',' (stripBrk (pyStrip line))) with
      | error e2 =>
        rw [hp] at h
        cases h
        exact parseTokens_err_eq _ _ hp
      | ok l => rw [hp] at h; cases h
  · rw [if_neg h1] at h; cases h

/-- An erroring line makes the whole line loop fail with the value
error, wherever the line sits. -/
theorem processLines_err_of_mem (lines : List (List Char)) (line : List Char)
    (hmem : line ∈ lines)
    (herr : lineRow? line = Except.error ConvErr.valueError) :
    processLines lines = Except.error ConvErr.valueError := by
  induction lines with
  | nil => cases hmem
  | cons l ls ih =>
    rcases List.mem_cons.mp hmem with rfl | h2
    · unfold processLines
      rw [herr]
    · unfold processLines
      cases hl : lineRow? l with
      | error e =>
        have he : e = ConvErr.valueError := lineRow?_err_eq l e hl
        subst he
        rfl
      | ok o =>
        cases o with
        | none => exact ih h2
        | some r => rw [ih h2]; rfl

/-- C6: if the marker span contains a data row with a token that strips
to something non-empty but is not a valid base-10 integer, the whole
conversion fails with the value error and writes nothing. -/
theorem C6_bad_token (content : String) (body line tok : List Char)
    (hspan : extractSpan content.data = some body)
    (hline : line ∈ splitOnChar '\n' body)
    (hhead : (pyStrip line).head? = some '[')
    (hmem : tok ∈ splitOnChar ',' (stripBrk (pyStrip line)))
    (hne : pyStrip tok ≠ [])
    (hbad : int_of_string? (pyStrip tok) = none) :
    runConversion content = (Except.error ConvErr.valueError, []) := by
  have hpl : processLines (splitOnChar '\n' body) = Except.error ConvErr.valueError :=
    processLines_err_of_mem _ line hline (lineRow?_err_of_bad line tok hhead hmem hne hbad)
  simp [runConversion, parseScad, hspan, hpl]

/-- Witness for C6: the spec's `[1,x,3]` row. -/
theorem C6_bad_token_witness :
    runConversion "map=[\n[1,x,3]\n];" = (Except.error ConvErr.valueError, []) :=
  C6_bad_token "map=[\n[1,x,3]\n];" "\n[1,x,3]\n".data "[1,x,3]".data "x".data
    (by decide) (by decide) (by decide) (by decide) (by decide) (by decide)

/-! ## Theorems about empty grids (claim C7) -/

/-- C7 counterexample: a grid with zero rows makes the statistics phase
fail with the index error from `heightmap[0]`, not with a division
error, contrary to the claim that both empty cases surface as a division
fault. -/
theorem C7_counterexample :
    computeStats ([] : List (List Int)) = Except.error ConvErr.indexError
    ∧ ConvErr.indexError ≠ ConvErr.divisionError :=
  ⟨rfl, by decide⟩

/-- C7 amended: a grid with zero rows fails with an index error when the
first row is read; a non-empty grid whose first row has zero columns has
`total_cells = 0` and fails with a division error during the percentage
report. -/
theorem C7_amended (hm : List (List Int)) :
    (hm = [] → computeStats hm = Except.error ConvErr.indexError)
    ∧ (∀ row0 rest, hm = row0 :: rest → row0.length = 0 →
        computeStats hm = Except.error ConvErr.divisionError) := by
  constructor
  · rintro rfl
    rfl
  · rintro row0 rest rfl hlen
    unfold computeStats
    simp [List.head?_cons, hlen]

/-- Witness for C7 amended, at both empty shapes. -/
theorem C7_amended_witness :
    computeStats ([] : List (List Int)) = Except.error ConvErr.indexError
    ∧ computeStats [([] : List Int)] = Except.error ConvErr.divisionError :=
  ⟨(C7_amended []).1 rfl, (C7_amended [[]]).2 [] [] rfl rfl⟩

/-! ## Theorems about empty rows (claims C9 and C10) -/

/-- C9 counterexample: the input line `[ ]` (bracket, space, bracket)
is recognized as a data row whose bracket-stripped content `" "` is
non-empty, yet it yields no tokens, so an empty row is appended: the
parse result contains a zero-length row. -/
theorem C9_counterexample :
    parse_scad_map "map=[\n[ ]\n];" = Except.ok [[]]
    ∧ ([] : List Int) ∈ [([] : List Int)] :=
  ⟨by decide, by decide⟩

/-- Inversion of a line that contributed a row. -/
theorem lineRow?_some_inv (line : List Char) (r : List Int)
    (h : lineRow? line = Except.ok (some r)) :
    (pyStrip line).head? = some '['
    ∧ stripBrk (pyStrip line) ≠ []
    ∧ parseTokens (splitOnChar ',' (stripBrk (pyStrip line))) = Except.ok r := by
  unfold lineRow? at h
  by_cases h1 : (pyStrip line).head? = some '['
  · rw [if_pos h1] at h
    by_cases h2 : stripBrk (pyStrip line) = []
    · rw [if_pos h2] at h
      cases h
    · rw [if_neg h2] at h
      cases hp : parseTokens (splitOnChar ',' (stripBrk (pyStrip line))) with
      | error e => rw [hp] at h; cases h
      | ok l2 =>
        rw [hp] at h
        have hlr : l2 = r := by simpa [Except.map] using h
        subst hlr
        exact ⟨h1, h2, rfl⟩
  · rw [if_neg h1] at h
    cases h

/-- C9 amended: a data row whose bracket-stripped content is empty (such
as `[]`) is skipped, but a zero-length row does appear whenever some line
is a data row with non-empty bracket-stripped content all of whose
tokens strip to empty (such as `[ ]`); so the parse result can contain
zero-length rows. -/
theorem C9_amended (lines : List (List Char)) (g : List (List Int))
    (h : processLines lines = Except.ok g) :
    (([] : List Int) ∈ g →
      ∃ line ∈ lines, (pyStrip line).head? = some '['
        ∧ stripBrk (pyStrip line) ≠ []
        ∧ parseTokens (splitOnChar ',' (stripBrk (pyStrip line))) = Except.ok [])
    ∧ parse_scad_map "map=[\n[]\n];" = Except.ok []
    ∧ parse_scad_map "map=[\n[ ]\n];" = Except.ok [[]] := by
  refine ⟨?_, by decide, by decide⟩
  induction lines generalizing g with
  | nil =>
    intro hg
    unfold processLines at h
    cases h
    cases hg
  | cons l ls ih =>
    intro hg
    unfold processLines at h
    cases hl : lineRow? l with
    | error e => rw [hl] at h; cases h
    | ok o =>
      rw [hl] at h
      cases o with
      | none =>
        obtain ⟨line, hmem, hrest⟩ := ih g h hg
        exact ⟨line, List.mem_cons_of_mem _ hmem, hrest⟩
      | some r =>
        cases hrec : processLines ls with
        | error e => rw [hrec] at h; cases h
        | ok g2 =>
          rw [hrec] at h
          cases h
          rcases List.mem_cons.mp hg with hr | hg2
          · have hinv := lineRow?_some_inv l r hl
            exact ⟨l, List.mem_cons_self l ls, hinv.1, hinv.2.1, hr ▸ hinv.2.2⟩
          · obtain ⟨line, hmem, hrest⟩ := ih g2 hrec hg2
            exact ⟨line, List.mem_cons_of_mem _ hmem, hrest⟩

/-- Witness for C9 amended at the concrete `[ ]` input. -/
theorem C9_amended_witness :
    parse_scad_map "map=[\n[]\n];" = Except.ok [] :=
  (C9_amended (splitOnChar '\n' "\n[ ]\n".data) [[]] (by decide)).2.1

/-- C10: the parser performs no range or shape validation: a grid with a
negative value, a value above 511, and rows of different lengths is
returned verbatim. -/
theorem C10_no_validation :
    parse_scad_map "map=[\n[-5,1000],\n[1,2,3]\n];" = Except.ok [[-5, 1000], [1, 2, 3]]
    ∧ (-5 : Int) < 0
    ∧ (511 : Int) < 1000
    ∧ ([-5, 1000] : List Int).length ≠ ([1, 2, 3] : List Int).length :=
  ⟨by decide, by decide, by decide, by decide⟩

end Ant3D
